import Mathlib

/-!
Shallow embedding of the order-processing core of the food-delivery backend
(`models/Order.js`, `models/MenuItem.js`, `routes/orders.js`).  JavaScript
numbers that hold money are modelled as rationals (`ℚ`); timestamps are
naturals (milliseconds); Mongo object ids are naturals.  Route handlers are
modelled from the point after authentication/authorization middleware, with
the `express-validator` checks that guard the modelled fields included.
-/

namespace FoodOrder

/-- Error kinds surfaced by the routes.  `validation`, `notFound`,
`authorization` and `payment` model the `ValidationError`, `NotFoundError`,
`AuthorizationError` and `PaymentError` classes of `middleware/errorHandler.js`
(a Mongoose schema-validation failure is also mapped to a 400 validation
response there, so it is collapsed into `validation`).  `jsTypeError` and
`jsRangeError` model native JavaScript `TypeError`/`RangeError` exceptions
escaping a handler (surfaced as 500s, not as any of the error classes). -/
inductive Err
  | validation
  | notFound
  | authorization
  | payment
  | jsTypeError
  | jsRangeError
deriving DecidableEq, Repr

/-- Order lifecycle states, from the `status` enum of `orderSchema`. -/
inductive OrderStatus
  | pending
  | confirmed
  | preparing
  | ready_for_pickup
  | out_for_delivery
  | delivered
  | cancelled
  | refunded
deriving DecidableEq, Repr, Fintype

/-- Payment methods, from `orderSchema.paymentInfo.method`. -/
inductive PaymentMethod
  | card
  | upi
  | wallet
  | cash_on_delivery
deriving DecidableEq, Repr

/-- Payment states, from `orderSchema.paymentInfo.status`. -/
inductive PaymentStatus
  | pending
  | completed
  | failed
  | refunded
deriving DecidableEq, Repr

/-- Menu-item states, from the `status` enum of `menuItemSchema`. -/
inductive MenuItemStatus
  | active
  | inactive
  | out_of_stock
deriving DecidableEq, Repr

/-- Restaurant states, from the `status` enum of `restaurantSchema`. -/
inductive RestaurantStatus
  | active
  | inactive
  | temporarily_closed
  | pending_approval
deriving DecidableEq, Repr

/-- One entry of `orderSchema.statusHistory`. -/
structure HistoryEntry where
  status : OrderStatus
  timestamp : ℕ
  note : String
  updatedBy : Option ℕ
deriving DecidableEq, Repr

/-- A customization selected on an order line item (`items.customizations`
of `orderSchema`; the stored `price` field is ignored by the price
calculation, which resolves against the catalog, so it is omitted). -/
structure SelectedCustomization where
  name : String
  selectedOption : String
deriving DecidableEq, Repr

/-- An add-on selected on an order line item (`items.addOns` of
`orderSchema`); `quantity` is optional in the request body. -/
structure SelectedAddOn where
  name : String
  quantity : Option ℕ
deriving DecidableEq, Repr

/-- One line item of an order (`orderSchema.items`). -/
structure OrderItem where
  menuItem : ℕ
  name : String
  price : ℚ
  quantity : ℕ
  customizations : List SelectedCustomization
  addOns : List SelectedAddOn
  itemTotal : ℚ
deriving DecidableEq, Repr

/-- The pricing block of an order (`orderSchema.pricing`); `discountAmount`
models `pricing.discount.amount`. -/
structure Pricing where
  subtotal : ℚ
  deliveryFee : ℚ
  tax : ℚ
  discountAmount : ℚ
  tip : ℚ
  total : ℚ
deriving DecidableEq, Repr

/-- The payment block of an order (`orderSchema.paymentInfo`). -/
structure PaymentInfo where
  method : PaymentMethod
  status : PaymentStatus
  transactionId : Option String
  paymentGateway : Option String
  paidAt : Option ℕ
  refundedAt : Option ℕ
  refundAmount : ℚ
deriving DecidableEq, Repr

/-- The delivery-tracking fields touched by `updateStatus`
(`orderSchema.deliveryTracking`). -/
structure DeliveryTracking where
  pickedUpAt : Option ℕ
  estimatedArrival : Option ℕ
deriving DecidableEq, Repr

/-- The rating block of an order (`orderSchema.rating`). -/
structure Rating where
  food : Option ℕ
  delivery : Option ℕ
  overall : Option ℕ
  review : Option String
  ratedAt : Option ℕ
deriving DecidableEq, Repr

/-- An order document, restricted to the fields the verified routes read or
write. -/
structure Order where
  user : ℕ
  restaurant : ℕ
  items : List OrderItem
  pricing : Pricing
  status : OrderStatus
  statusHistory : List HistoryEntry
  estimatedDeliveryTime : ℕ
  actualDeliveryTime : Option ℕ
  paymentInfo : PaymentInfo
  deliveryTracking : DeliveryTracking
  rating : Rating
  cancellationReason : Option String
deriving DecidableEq, Repr

/-- Method `orderSchema.methods.updateStatus` (Order.js 435-462): set the
status, append a history entry, and set derived timestamps for the
`confirmed`, `out_for_delivery` and `delivered` cases. -/
def Order.updateStatus (o : Order) (newStatus : OrderStatus) (note : String)
    (updatedBy : Option ℕ) (now : ℕ) : Order :=
  let o1 : Order :=
    { o with
      status := newStatus
      statusHistory := o.statusHistory ++
        [{ status := newStatus, timestamp := now, note := note, updatedBy := updatedBy }] }
  match newStatus with
  | .confirmed => { o1 with estimatedDeliveryTime := now + (30 + 20) * 60000 }
  | .out_for_delivery =>
      { o1 with deliveryTracking :=
          { pickedUpAt := some now, estimatedArrival := some (now + 20 * 60000) } }
  | .delivered => { o1 with actualDeliveryTime := some now }
  | _ => o1

/-- The `validTransitions` object of the status route (orders.js 348-356).
It is a JavaScript object literal with no key for `refunded`, so looking up
a `refunded` order yields `undefined`; the lookup is therefore partial. -/
def validTransitions : OrderStatus → Option (List OrderStatus)
  | .pending => some [.confirmed, .cancelled]
  | .confirmed => some [.preparing, .cancelled]
  | .preparing => some [.ready_for_pickup, .cancelled]
  | .ready_for_pickup => some [.out_for_delivery]
  | .out_for_delivery => some [.delivered]
  | .delivered => some []
  | .cancelled => some []
  | .refunded => none

/-- The legal successor set of a status: the row of `validTransitions`,
empty when the object has no such key. -/
def legalSuccessors (s : OrderStatus) : List OrderStatus :=
  (validTransitions s).getD []

/-- The target statuses accepted by the route's
`body('status').isIn([...])` validator (orders.js 319-322); `refunded` is
not an accepted target. -/
def allowedStatusTargets : List OrderStatus :=
  [.pending, .confirmed, .preparing, .ready_for_pickup,
   .out_for_delivery, .delivered, .cancelled]

/-- Handler `PATCH /api/orders/:id/status` (orders.js 317-386), after
authentication and the ownership check: the `isIn` validator, then the
transition-legality check, then `order.updateStatus`.  For an order whose
status is `refunded`, `validTransitions[order.status]` is `undefined` and
`.includes` on it throws a native `TypeError`. -/
def updateStatusRoute (o : Order) (target : OrderStatus) (note : String)
    (actor : ℕ) (now : ℕ) : Except Err Order :=
  if target ∉ allowedStatusTargets then .error .validation
  else
    match validTransitions o.status with
    | none => .error .jsTypeError
    | some succs =>
        if target ∈ succs then .ok (o.updateStatus target note (some actor) now)
        else .error .validation

/-- The order state visible in the store after a handler ran: the handler's
result when it saved, the untouched input order when it failed (no failing
path of the modelled handlers saves first). -/
def persistedOrder (o : Order) (r : Except Err Order) : Order :=
  match r with
  | .ok o' => o'
  | .error _ => o

/-- A time of day.  The source stores `HH:MM` strings and compares them with
JavaScript string comparison; on zero-padded `HH:MM` strings that is exactly
the lexicographic order on (hour, minute) modelled here. -/
structure TimeOfDay where
  hh : ℕ
  mm : ℕ
deriving DecidableEq, Repr

/-- Strict order of `TimeOfDay`, matching `<` on zero-padded `HH:MM`
strings. -/
def TimeOfDay.lt (a b : TimeOfDay) : Bool :=
  a.hh < b.hh || (a.hh = b.hh && a.mm < b.mm)

/-- The `availableHours` window of `menuItemSchema.availability`; `stop`
models the source's `end` field (a Lean keyword). -/
structure AvailableHours where
  start : TimeOfDay
  stop : TimeOfDay
deriving DecidableEq, Repr

/-- The `availability` block of `menuItemSchema`; `availableQuantity = none`
models `null` (unlimited), `availableDays` holds lowercase day names. -/
structure Availability where
  isAvailable : Bool
  availableQuantity : Option ℕ
  availableDays : List String
  availableHours : AvailableHours
deriving DecidableEq, Repr

/-- One option of a menu-item customization
(`menuItemSchema.customizations[].options[]`). -/
structure CustomizationOption where
  name : String
  price : ℚ
deriving DecidableEq, Repr

/-- One customization group of a menu item
(`menuItemSchema.customizations[]`). -/
structure Customization where
  name : String
  options : List CustomizationOption
deriving DecidableEq, Repr

/-- One add-on of a menu item (`menuItemSchema.addOns[]`). -/
structure AddOn where
  name : String
  price : ℚ
deriving DecidableEq, Repr

/-- A menu-item document, restricted to the fields the verified routes read
or write. -/
structure MenuItem where
  id : ℕ
  restaurant : ℕ
  name : String
  price : ℚ
  customizations : List Customization
  addOns : List AddOn
  availability : Availability
  orderCount : ℕ
  status : MenuItemStatus
deriving DecidableEq, Repr

/-- The wall-clock context a request runs under: the current day of week
(lowercase name) and time of day. -/
structure Clock where
  weekday : String
  time : TimeOfDay
deriving DecidableEq, Repr

/-- Models the request add-on quantity default `addOn.quantity || 1`
(MenuItem.js 274).  JavaScript `||` replaces every falsy value, so not only
a missing quantity but also an explicit quantity `0` becomes `1`. -/
def jsQuantity : Option ℕ → ℕ
  | none => 1
  | some 0 => 1
  | some (n + 1) => n + 1

/-- Method `menuItemSchema.methods.calculatePrice` (MenuItem.js 256-279)
starts from the base price, adds the price of each selected customization
option that resolves against the item's customization table (first match by
group name, then by option name), then each matched add-on's price times its
quantity; unmatched names are skipped silently.  `customizationStep` is the
body of its `customizations.forEach` accumulation (MenuItem.js 260-268). -/
def customizationStep (m : MenuItem) (acc : ℚ) (c : SelectedCustomization) : ℚ :=
  match m.customizations.find? (fun cc => cc.name = c.name) with
  | some cc =>
      match cc.options.find? (fun op => op.name = c.selectedOption) with
      | some op => acc + op.price
      | none => acc
  | none => acc

/-- The body of the `addOns.forEach` accumulation of `calculatePrice`
(MenuItem.js 271-276). -/
def addOnStep (m : MenuItem) (acc : ℚ) (a : SelectedAddOn) : ℚ :=
  match m.addOns.find? (fun ac => ac.name = a.name) with
  | some ac => acc + ac.price * (jsQuantity a.quantity : ℚ)
  | none => acc

/-- The whole method: the two `forEach` accumulations, starting from the
base price. -/
def MenuItem.calculatePrice (m : MenuItem) (customizations : List SelectedCustomization)
    (addOns : List SelectedAddOn) : ℚ :=
  addOns.foldl (addOnStep m) (customizations.foldl (customizationStep m) m.price)

/-- The contribution of one selected customization to the unit price: the
matched option's price, `0` when the group or option name does not resolve. -/
def customizationPrice (m : MenuItem) (c : SelectedCustomization) : ℚ :=
  match m.customizations.find? (fun cc => cc.name = c.name) with
  | some cc =>
      match cc.options.find? (fun op => op.name = c.selectedOption) with
      | some op => op.price
      | none => 0
  | none => 0

/-- The contribution of one selected add-on to the unit price under the
source's `|| 1` quantity default, `0` when the name does not resolve. -/
def addOnPrice (m : MenuItem) (a : SelectedAddOn) : ℚ :=
  match m.addOns.find? (fun ac => ac.name = a.name) with
  | some ac => ac.price * (jsQuantity a.quantity : ℚ)
  | none => 0

/-- The unit price exactly as claim C5 words it, written from the claim for
comparison with the source's `MenuItem.calculatePrice`: each matched add-on
contributes its price times its quantity, the quantity defaulting to 1 only
when it is absent. -/
def claimUnitPrice (m : MenuItem) (customizations : List SelectedCustomization)
    (addOns : List SelectedAddOn) : ℚ :=
  m.price + (customizations.map (customizationPrice m)).sum +
    (addOns.map (fun a =>
      match m.addOns.find? (fun ac => ac.name = a.name) with
      | some ac => ac.price * ((a.quantity.getD 1 : ℕ) : ℚ)
      | none => 0)).sum

/-- The quantity test of the availability virtual (MenuItem.js 233):
`availableQuantity !== null && availableQuantity <= 0`. -/
def quantityDepleted : Option ℕ → Bool
  | some q => decide (q ≤ 0)
  | none => false

/-- Models `new Date().toLocaleDateString('en-US', { weekday: 'lowercase' })`
(MenuItem.js 238).  ECMA-402 only permits `narrow`, `short` and `long` as
values of the `weekday` option; any other value makes the underlying
`Intl.DateTimeFormat` construction throw a `RangeError`, so this call throws
for every date. -/
def localeWeekdayLowercase (_ : Clock) : Except Err String :=
  .error .jsRangeError

/-- Virtual `menuItemSchema.virtual('isCurrentlyAvailable')` (MenuItem.js
227-253), faithfully: the flag/status check, then the quantity check, then
the current-day computation — which always throws (`localeWeekdayLowercase`),
so the getter never reaches the day and time-window comparisons. -/
def MenuItem.isCurrentlyAvailable (m : MenuItem) (now : Clock) : Except Err Bool :=
  if !m.availability.isAvailable || m.status ≠ .active then .ok false
  else if quantityDepleted m.availability.availableQuantity then .ok false
  else
    match localeWeekdayLowercase now with
    | .error e => .error e
    | .ok currentDay =>
        if m.availability.availableDays ≠ [] ∧
            currentDay ∉ m.availability.availableDays then .ok false
        else if TimeOfDay.lt now.time m.availability.availableHours.start ||
            TimeOfDay.lt m.availability.availableHours.stop now.time then .ok false
        else .ok true

/-- The availability virtual with the current-day computation as intended:
`currentDay` is the lowercase weekday name of `now`.  In the source the
`toLocaleDateString` call of MenuItem.js 238 raises `RangeError` instead
(see `MenuItem.isCurrentlyAvailable`); the order-creation embedding uses
this intended form so the downstream pipeline is analyzable, with the crash
recorded against the availability claim. -/
def MenuItem.isCurrentlyAvailableIntended (m : MenuItem) (now : Clock) : Bool :=
  if !m.availability.isAvailable || m.status ≠ .active then false
  else if quantityDepleted m.availability.availableQuantity then false
  else if m.availability.availableDays ≠ [] ∧
      now.weekday ∉ m.availability.availableDays then false
  else if TimeOfDay.lt now.time m.availability.availableHours.start ||
      TimeOfDay.lt m.availability.availableHours.stop now.time then false
  else true

/-- Catalog lookup by id, modelling `MenuItem.findById` (Mongo `_id`s are
unique, so the first match is the document). -/
def findMenuItem (catalog : List MenuItem) (id : ℕ) : Option MenuItem :=
  catalog.find? (fun m => m.id = id)

/-- Method `orderSchema.methods.calculateRefundAmount` (Order.js 477-486).
The source multiplies by the JavaScript doubles `0.8` and `0.5`; they are
modelled as the rationals `8/10` and `5/10` (exact at every value the claims
test). -/
def Order.calculateRefundAmount (o : Order) : ℚ :=
  if o.status = .pending ∨ o.status = .confirmed then o.pricing.total
  else if o.status = .preparing then o.pricing.total * (8 / 10)
  else if o.status = .ready_for_pickup then o.pricing.total * (5 / 10)
  else 0

/-- The `nonCancellableStatuses` list of
`orderSchema.methods.canBeCancelled` (Order.js 472). -/
def nonCancellableStatuses : List OrderStatus :=
  [.out_for_delivery, .delivered, .cancelled, .refunded]

/-- Method `orderSchema.methods.canBeCancelled` (Order.js 471-474). -/
def Order.canBeCancelled (o : Order) : Bool :=
  decide (o.status ∉ nonCancellableStatuses)

/-- The history note written by the cancel handler (orders.js 427). -/
def cancelNote (isAdmin : Bool) (reason : String) : String :=
  "Cancelled by " ++ (if isAdmin then "admin" else "customer") ++ ": " ++ reason

/-- One step of the cancel handler's inventory-restoration loop (orders.js
442-448): the menu item referenced by the line item, when found and when its
`availableQuantity` is not `null`, gets the line item's quantity added back;
a `null` quantity is untouched. -/
def restoreItemQuantity (m : MenuItem) (q : ℕ) : MenuItem :=
  match m.availability.availableQuantity with
  | some a =>
      { m with availability := { m.availability with availableQuantity := some (a + q) } }
  | none => m

/-- The update one loop iteration applies to one catalog document: the
document referenced by the line item gets `restoreItemQuantity`, every
other document is untouched. -/
def restoreStep (li : OrderItem) (m : MenuItem) : MenuItem :=
  if m.id = li.menuItem then restoreItemQuantity m li.quantity else m

/-- Applies `restoreItemQuantity` to the catalog document referenced by one
line item (the `findById` + `save` pair of the loop, expressed as an
id-matching map since `_id`s are unique in the store). -/
def restoreForItem (catalog : List MenuItem) (li : OrderItem) : List MenuItem :=
  catalog.map (restoreStep li)

/-- The whole inventory-restoration loop of the cancel handler, iterating
the order's line items in sequence. -/
def restoreInventory (catalog : List MenuItem) : List OrderItem → List MenuItem
  | [] => catalog
  | li :: rest => restoreInventory (restoreForItem catalog li) rest

/-- Handler `PATCH /api/orders/:id/cancel` (orders.js 391-470), after
authentication and the ownership check: the `reason` non-empty validator,
the `canBeCancelled` guard, refund computation from the status at
cancellation time, the order mutation (status, reason, history entry,
payment-refund marking when payment was completed and the refund is
positive), then the inventory restoration.  `cancelledOrder` is the order
mutation of orders.js 421-437: refund computed from the status at
cancellation time, then status/reason/history update and conditional
payment-refund marking. -/
def cancelledOrder (o : Order) (reason : String) (isAdmin : Bool) (actor now : ℕ) :
    Order :=
  let refundAmount := o.calculateRefundAmount
  let o1 : Order :=
    { o with
      status := .cancelled
      cancellationReason := some reason
      statusHistory := o.statusHistory ++
        [{ status := .cancelled
           timestamp := now
           note := cancelNote isAdmin reason
           updatedBy := some actor }] }
  if o.paymentInfo.status = .completed ∧ 0 < refundAmount then
    { o1 with paymentInfo :=
        { o1.paymentInfo with
          status := .refunded
          refundedAt := some now
          refundAmount := refundAmount } }
  else o1

/-- The guard-and-save part of the cancel handler: the `reason` non-empty
validator, the `canBeCancelled` guard, then the save of `cancelledOrder`
and the inventory restoration. -/
def cancelRoute (o : Order) (reason : String) (isAdmin : Bool) (actor now : ℕ)
    (catalog : List MenuItem) : Except Err (Order × List MenuItem) :=
  if reason = "" then .error .validation
  else if !o.canBeCancelled then .error .validation
  else .ok (cancelledOrder o reason isAdmin actor now, restoreInventory catalog o.items)

/-- The order state in the store after the cancel handler ran. -/
def cancelPersisted (o : Order) (r : Except Err (Order × List MenuItem)) : Order :=
  match r with
  | .ok p => p.1
  | .error _ => o

/-- Models JavaScript truthiness of an optional numeric field, as used by
the rate handler's `if (order.rating.overall)` check (orders.js 506):
`undefined` and `0` are falsy. -/
def jsTruthyNat : Option ℕ → Bool
  | none => false
  | some 0 => false
  | some (_ + 1) => true

/-- Models `review || ''` for the optional review text of the rate handler
(`undefined` becomes the empty string). -/
def orEmpty : Option String → String
  | none => ""
  | some s => s

/-- Handler `POST /api/orders/:id/rate` (orders.js 475-547), after
authentication and the ownership check: the 1..5 range validators and the
500-character review limit, the delivered-status guard, the already-rated
guard, then the one-time write of the rating block.  The derived review
record it also publishes is outside the embedded state. -/
def rateOrderRoute (o : Order) (food delivery overall : ℕ) (review : Option String)
    (now : ℕ) : Except Err Order :=
  if ¬(1 ≤ food ∧ food ≤ 5 ∧ 1 ≤ delivery ∧ delivery ≤ 5 ∧
       1 ≤ overall ∧ overall ≤ 5) then .error .validation
  else if 500 < (orEmpty review).length then .error .validation
  else if o.status ≠ .delivered then .error .validation
  else if jsTruthyNat o.rating.overall then .error .validation
  else
    .ok { o with rating :=
      { food := some food
        delivery := some delivery
        overall := some overall
        review := some (orEmpty review)
        ratedAt := some now } }

/-- The `deliveryInfo` block of `restaurantSchema` (fee and minimum order,
both schema-validated non-negative). -/
structure DeliveryInfo where
  deliveryFee : ℚ
  minimumOrder : ℚ
deriving DecidableEq, Repr

/-- A restaurant document, restricted to the fields the order-creation
handler reads. -/
structure Restaurant where
  id : ℕ
  status : RestaurantStatus
  deliveryInfo : DeliveryInfo
deriving DecidableEq, Repr

/-- One requested line item of the order-creation body (`items[*]`); the
quantity is validated `≥ 1` by `body('items.*.quantity').isInt({ min: 1 })`. -/
structure ReqItem where
  menuItem : ℕ
  quantity : ℕ
  customizations : List SelectedCustomization
  addOns : List SelectedAddOn
deriving DecidableEq, Repr

/-- The order-creation request body, restricted to the fields the pricing
and availability logic reads (address and contact fields are only
presence-validated and copied through). -/
structure CreateRequest where
  restaurant : ℕ
  items : List ReqItem
  tip : Option ℚ
  paymentMethod : PaymentMethod
deriving DecidableEq, Repr

/-- A successful result of the mock payment gateway (orders.js 23-29); its
`status` is always `completed` there. -/
structure PayResult where
  transactionId : String
  status : PaymentStatus
  gateway : String
deriving DecidableEq, Repr

/-- The observable outcome of the order-creation handler: the HTTP-level
result, the set of order documents the request left in the store, and the
menu-item catalog after it. -/
structure CreateResult where
  response : Except Err Order
  persisted : List Order
  catalog : List MenuItem

/-- Models `req.body.tip || 0` (orders.js 133). -/
def jsOrZero : Option ℚ → ℚ
  | none => 0
  | some t => t

/-- Mongoose schema validation run by `Order.create`, restricted to the
numeric bounds of `orderSchema` on the embedded fields: every pricing
component has `min: 0`, every line item has `price ≥ 0` and
`quantity ≥ 1`. -/
def schemaValidate (o : Order) : Bool :=
  decide (0 ≤ o.pricing.subtotal) && decide (0 ≤ o.pricing.deliveryFee) &&
  decide (0 ≤ o.pricing.tax) && decide (0 ≤ o.pricing.discountAmount) &&
  decide (0 ≤ o.pricing.tip) && decide (0 ≤ o.pricing.total) &&
  o.items.all (fun li => decide (0 ≤ li.price) && decide (1 ≤ li.quantity))

/-- The per-item loop of the creation handler (orders.js 89-120): resolve
the requested item against the fetched menu items (`undefined` would make
the following property access throw, but the preceding length check rules
that out), guard availability and requested quantity, snapshot name and
computed unit price, and record `itemTotal = unit price × quantity`.
Availability uses the intended day semantics (see
`MenuItem.isCurrentlyAvailableIntended`). -/
def buildOrderItems (menuItems : List MenuItem) (now : Clock) :
    List ReqItem → Except Err (List OrderItem)
  | [] => .ok []
  | r :: rest =>
    match menuItems.find? (fun m => m.id = r.menuItem) with
    | none => .error .jsTypeError
    | some m =>
      if !m.isCurrentlyAvailableIntended now then .error .validation
      else if (match m.availability.availableQuantity with
               | some q => decide (q < r.quantity)
               | none => false) then .error .validation
      else
        let itemPrice := m.calculatePrice r.customizations r.addOns
        match buildOrderItems menuItems now rest with
        | .error e => .error e
        | .ok tail =>
            .ok ({ menuItem := m.id
                   name := m.name
                   price := itemPrice
                   quantity := r.quantity
                   customizations := r.customizations
                   addOns := r.addOns
                   itemTotal := itemPrice * (r.quantity : ℚ) } :: tail)

/-- The pure construction-and-validation part of the creation handler
(orders.js 67-161): restaurant lookup and active check, catalog fetch with
the length equality check (which incidentally rejects duplicate item
references), the per-item loop, the minimum-order check, the pricing block
(`tax = subtotal * 0.08`, `discount = 0`,
`total = subtotal + deliveryFee + tax - discount + tip`), the initial
history entry written by the pre-save hook, and `Order.create`'s schema
validation. -/
def buildOrder (uid : ℕ) (restaurant? : Option Restaurant) (catalog : List MenuItem)
    (req : CreateRequest) (now : Clock) (nowMs : ℕ) : Except Err Order :=
  match restaurant? with
  | none => .error .notFound
  | some r =>
    if r.status ≠ .active then .error .notFound
    else
      let reqIds := req.items.map (fun it => it.menuItem)
      let menuItems := catalog.filter
        (fun m => m.id ∈ reqIds ∧ m.restaurant = req.restaurant ∧ m.status = .active)
      if menuItems.length ≠ reqIds.length then .error .validation
      else
        match buildOrderItems menuItems now req.items with
        | .error e => .error e
        | .ok items =>
          let subtotal := (items.map (fun li => li.itemTotal)).sum
          if subtotal < r.deliveryInfo.minimumOrder then .error .validation
          else
            let deliveryFee := r.deliveryInfo.deliveryFee
            let tax := subtotal * (8 / 100)
            let discount : ℚ := 0
            let tip := jsOrZero req.tip
            let order : Order :=
              { user := uid
                restaurant := req.restaurant
                items := items
                pricing :=
                  { subtotal := subtotal
                    deliveryFee := deliveryFee
                    tax := tax
                    discountAmount := discount
                    tip := tip
                    total := subtotal + deliveryFee + tax - discount + tip }
                status := .pending
                statusHistory := [{ status := .pending
                                    timestamp := nowMs
                                    note := "Order placed"
                                    updatedBy := none }]
                estimatedDeliveryTime := nowMs + 45 * 60000
                actualDeliveryTime := none
                paymentInfo :=
                  { method := req.paymentMethod
                    status := .pending
                    transactionId := none
                    paymentGateway := none
                    paidAt := none
                    refundedAt := none
                    refundAmount := 0 }
                deliveryTracking := { pickedUpAt := none, estimatedArrival := none }
                rating :=
                  { food := none
                    delivery := none
                    overall := none
                    review := none
                    ratedAt := none }
                cancellationReason := none }
            if schemaValidate order then .ok order else .error .validation

/-- One step of the creation handler's inventory loop (orders.js 186-195):
decrement a non-`null` `availableQuantity` by the requested quantity and
bump `orderCount` (expressed as an id-matching map; the JS subtraction is
unguarded, the earlier quantity check keeps it non-negative here). -/
def decrementForItem (catalog : List MenuItem) (r : ReqItem) : List MenuItem :=
  catalog.map (fun m =>
    if m.id = r.menuItem then
      let m1 := match m.availability.availableQuantity with
        | some q =>
            { m with availability :=
                { m.availability with availableQuantity := some (q - r.quantity) } }
        | none => m
      { m1 with orderCount := m1.orderCount + r.quantity }
    else m)

/-- The whole inventory-decrement loop of the creation handler. -/
def decrementInventory (catalog : List MenuItem) (items : List ReqItem) : List MenuItem :=
  items.foldl decrementForItem catalog

/-- Handler `POST /api/orders` (orders.js 38-225), after authentication:
build and persist the order, then — for every method except cash on
delivery — invoke the payment gateway (`gateway = none` models a
`PaymentError` throw).  On gateway failure the handler deletes the
just-created order (`Order.findByIdAndDelete`) and rethrows, so the store
keeps no order; on success it saves the completed payment info and runs the
inventory decrement.  Cash on delivery skips the gateway. -/
def createOrder (uid : ℕ) (restaurant? : Option Restaurant) (catalog : List MenuItem)
    (req : CreateRequest) (now : Clock) (nowMs : ℕ) (gateway : Option PayResult) :
    CreateResult :=
  match buildOrder uid restaurant? catalog req now nowMs with
  | .error e => { response := .error e, persisted := [], catalog := catalog }
  | .ok order =>
    if req.paymentMethod = .cash_on_delivery then
      { response := .ok order
        persisted := [order]
        catalog := decrementInventory catalog req.items }
    else
      match gateway with
      | none => { response := .error .payment, persisted := [], catalog := catalog }
      | some pr =>
        let order' : Order :=
          { order with paymentInfo :=
              { order.paymentInfo with
                status := pr.status
                transactionId := some pr.transactionId
                paymentGateway := some pr.gateway
                paidAt := some nowMs } }
        { response := .ok order'
          persisted := [order']
          catalog := decrementInventory catalog req.items }

/-- An availability block with no restriction: flagged available, unlimited
quantity, no day list, full-day window. -/
def alwaysAvailable : Availability :=
  { isAvailable := true
    availableQuantity := none
    availableDays := []
    availableHours := { start := { hh := 0, mm := 0 }, stop := { hh := 23, mm := 59 } } }

/-- Concrete menu item for the C5 worked example: base price 10, one
customization option priced +2, one add-on priced +1. -/
def ex_item : MenuItem :=
  { id := 8
    restaurant := 1
    name := "Bowl"
    price := 10
    customizations := [{ name := "Size", options := [{ name := "Large", price := 2 }] }]
    addOns := [{ name := "Extra", price := 1 }]
    availability := alwaysAvailable
    orderCount := 0
    status := .active }

/-- The matched customization selection of the C5 worked example. -/
def exCust : SelectedCustomization :=
  { name := "Size", selectedOption := "Large" }

/-- The matched add-on selection of the C5 worked example, quantity 3. -/
def exAddOn : SelectedAddOn :=
  { name := "Extra", quantity := some 3 }

/-- The add-on selection with an explicit quantity of 0, the input where the
source's `|| 1` default and the claim's formula part ways. -/
def zeroQtyAddOn : SelectedAddOn :=
  { name := "Extra", quantity := some 0 }

/-- A concrete request clock: a Monday noon. -/
def w_clock : Clock :=
  { weekday := "monday", time := { hh := 12, mm := 0 } }

/-- The single line item of the witness order: two units of catalog item 1. -/
def w_li : OrderItem :=
  { menuItem := 1
    name := "Margherita"
    price := 25
    quantity := 2
    customizations := []
    addOns := []
    itemTotal := 50 }

/-- The catalog document the witness order references, with 5 units left. -/
def w_catItem : MenuItem :=
  { id := 1
    restaurant := 1
    name := "Margherita"
    price := 25
    customizations := []
    addOns := []
    availability :=
      { isAvailable := true
        availableQuantity := some 5
        availableDays := []
        availableHours := { start := { hh := 0, mm := 0 }, stop := { hh := 23, mm := 59 } } }
    orderCount := 0
    status := .active }

/-- The witness catalog. -/
def w_cat : List MenuItem := [w_catItem]

/-- The witness restaurant: active, no minimum order, delivery fee 5. -/
def w_rest : Restaurant :=
  { id := 1
    status := .active
    deliveryInfo := { deliveryFee := 5, minimumOrder := 0 } }

/-- The witness creation request: two units of item 1, tip 3, cash on
delivery. -/
def w_req : CreateRequest :=
  { restaurant := 1
    items := [{ menuItem := 1, quantity := 2, customizations := [], addOns := [] }]
    tip := some 3
    paymentMethod := .cash_on_delivery }

/-- A concrete freshly placed order used by the witnesses: one line item,
cash on delivery, payment pending. -/
def w_pendingOrder : Order :=
  { user := 3
    restaurant := 1
    items := [w_li]
    pricing := { subtotal := 50, deliveryFee := 5, tax := 4, discountAmount := 0,
                 tip := 3, total := 62 }
    status := .pending
    statusHistory := [{ status := .pending, timestamp := 500, note := "Order placed",
                        updatedBy := none }]
    estimatedDeliveryTime := 500 + 45 * 60000
    actualDeliveryTime := none
    paymentInfo := { method := .cash_on_delivery, status := .pending,
                     transactionId := none, paymentGateway := none, paidAt := none,
                     refundedAt := none, refundAmount := 0 }
    deliveryTracking := { pickedUpAt := none, estimatedArrival := none }
    rating := { food := none, delivery := none, overall := none, review := none,
                ratedAt := none }
    cancellationReason := none }

/-- The witness order with a chosen status and total (all other fields as in
`w_pendingOrder`). -/
def setStatusTotal (s : OrderStatus) (t : ℚ) : Order :=
  { w_pendingOrder with
    status := s
    pricing := { w_pendingOrder.pricing with total := t } }

theorem updateStatus_status (o : Order) (t : OrderStatus) (n : String)
    (u : Option ℕ) (now : ℕ) : (o.updateStatus t n u now).status = t := by
  cases t <;> rfl

theorem updateStatus_statusHistory (o : Order) (t : OrderStatus) (n : String)
    (u : Option ℕ) (now : ℕ) :
    (o.updateStatus t n u now).statusHistory =
      o.statusHistory ++ [{ status := t, timestamp := now, note := n, updatedBy := u }] := by
  cases t <;> rfl

theorem updateStatus_pricing (o : Order) (t : OrderStatus) (n : String)
    (u : Option ℕ) (now : ℕ) : (o.updateStatus t n u now).pricing = o.pricing := by
  cases t <;> rfl

/-- Every legal successor is an accepted request target. -/
theorem legalSuccessors_subset_allowed :
    ∀ s t : OrderStatus, t ∈ legalSuccessors s → t ∈ allowedStatusTargets := by
  decide

/-- The transition table has a row exactly for the non-`refunded` statuses. -/
theorem validTransitions_isSome_iff :
    ∀ s : OrderStatus, (validTransitions s).isSome ↔ s ≠ .refunded := by
  decide

/-- C1: for every order whose status has a row in the transition table
(every status except `refunded`, which the table's successor map does not
cover and which no operation ever assigns), a status-update request whose
target is not in the current status's legal successor set fails with
`Validation`, and the order's status and status history are unchanged. -/
theorem updateStatus_illegal_transition_rejected
    (o : Order) (target : OrderStatus) (note : String) (actor now : ℕ)
    (hs : o.status ≠ .refunded)
    (ht : target ∉ legalSuccessors o.status) :
    updateStatusRoute o target note actor now = .error .validation ∧
      (persistedOrder o (updateStatusRoute o target note actor now)).status = o.status ∧
      (persistedOrder o (updateStatusRoute o target note actor now)).statusHistory =
        o.statusHistory := by
  have hrow : (validTransitions o.status).isSome :=
    (validTransitions_isSome_iff o.status).mpr hs
  cases hsucc : validTransitions o.status with
  | none => rw [hsucc] at hrow; simp at hrow
  | some succs =>
      have ht' : target ∉ succs := by
        simpa [legalSuccessors, hsucc] using ht
      by_cases ha : target ∈ allowedStatusTargets
      · refine ⟨?_, ?_, ?_⟩ <;>
          simp [updateStatusRoute, ha, hsucc, ht', persistedOrder]
      · refine ⟨?_, ?_, ?_⟩ <;>
          simp [updateStatusRoute, ha, persistedOrder]

/-- Witness for C1: a `pending -> delivered` request is rejected and leaves
the order untouched. -/
theorem updateStatus_illegal_transition_rejected_witness :
    w_pendingOrder.status ≠ .refunded ∧
      OrderStatus.delivered ∉ legalSuccessors w_pendingOrder.status ∧
      updateStatusRoute w_pendingOrder .delivered ("") 7 1000 = .error .validation ∧
      (persistedOrder w_pendingOrder
        (updateStatusRoute w_pendingOrder .delivered ("") 7 1000)).status =
          w_pendingOrder.status ∧
      (persistedOrder w_pendingOrder
        (updateStatusRoute w_pendingOrder .delivered ("") 7 1000)).statusHistory =
          w_pendingOrder.statusHistory := by
  refine ⟨by decide, by decide, ?_⟩
  exact updateStatus_illegal_transition_rejected w_pendingOrder .delivered ("") 7 1000
    (by decide) (by decide)

theorem getLast?_appendSingle {α : Type} (l : List α) (a : α) :
    (l ++ [a]).getLast? = some a := by
  induction l with
  | nil => rfl
  | cons x xs ih =>
      cases xs with
      | nil => rfl
      | cons y ys => simpa using ih

/-- C2: every legal status transition succeeds, grows the status history by
exactly one entry, and the appended final entry's status equals the order's
new current status. -/
theorem updateStatus_legal_appends_history
    (o : Order) (target : OrderStatus) (note : String) (actor now : ℕ)
    (h : target ∈ legalSuccessors o.status) :
    ∃ o', updateStatusRoute o target note actor now = .ok o' ∧
      o'.statusHistory.length = o.statusHistory.length + 1 ∧
      o'.status = target ∧
      o'.statusHistory.getLast? =
        some { status := o'.status, timestamp := now, note := note,
               updatedBy := some actor } := by
  have ha := legalSuccessors_subset_allowed o.status target h
  cases hsucc : validTransitions o.status with
  | none => rw [legalSuccessors, hsucc] at h; simp at h
  | some succs =>
      have ht : target ∈ succs := by simpa [legalSuccessors, hsucc] using h
      refine ⟨o.updateStatus target note (some actor) now, ?_, ?_, ?_, ?_⟩
      · simp [updateStatusRoute, ha, hsucc, ht]
      · rw [updateStatus_statusHistory]; simp
      · exact updateStatus_status o target note (some actor) now
      · rw [updateStatus_statusHistory, updateStatus_status]
        exact getLast?_appendSingle _ _

/-- Witness for C2: confirming a pending order appends exactly one history
entry carrying the new status. -/
theorem updateStatus_legal_appends_history_witness :
    OrderStatus.confirmed ∈ legalSuccessors w_pendingOrder.status ∧
      ∃ o', updateStatusRoute w_pendingOrder .confirmed ("") 7 999 = .ok o' ∧
        o'.statusHistory.length = w_pendingOrder.statusHistory.length + 1 ∧
        o'.status = .confirmed ∧
        o'.statusHistory.getLast? =
          some { status := o'.status, timestamp := 999, note := "",
                 updatedBy := some 7 } :=
  ⟨by decide,
   updateStatus_legal_appends_history w_pendingOrder .confirmed ("") 7 999 (by decide)⟩

/-- C3: the refund computed at cancellation is a pure function of the status
at cancellation time and the total — the full total for `pending` and
`confirmed`, 80% for `preparing`, 50% for `ready_for_pickup`, `0` for the
remaining statuses — with the claim's concrete instances at total 100. -/
theorem calculateRefundAmount_tiers :
    (∀ o o' : Order, o.status = o'.status → o.pricing.total = o'.pricing.total →
      o.calculateRefundAmount = o'.calculateRefundAmount) ∧
    (∀ o : Order, o.status = .pending ∨ o.status = .confirmed →
      o.calculateRefundAmount = o.pricing.total) ∧
    (∀ o : Order, o.status = .preparing →
      o.calculateRefundAmount = o.pricing.total * (8 / 10)) ∧
    (∀ o : Order, o.status = .ready_for_pickup →
      o.calculateRefundAmount = o.pricing.total * (5 / 10)) ∧
    (∀ o : Order, o.status = .out_for_delivery ∨ o.status = .delivered ∨
      o.status = .cancelled ∨ o.status = .refunded →
      o.calculateRefundAmount = 0) ∧
    (setStatusTotal .pending 100).calculateRefundAmount = 100 ∧
    (setStatusTotal .preparing 100).calculateRefundAmount = 80 ∧
    (setStatusTotal .ready_for_pickup 100).calculateRefundAmount = 50 := by
  refine ⟨?_, ?_, ?_, ?_, ?_, ?_, ?_, ?_⟩
  · intro o o' hs ht
    simp only [Order.calculateRefundAmount, hs, ht]
  · intro o h
    rcases h with h | h <;> simp [Order.calculateRefundAmount, h]
  · intro o h
    simp [Order.calculateRefundAmount, h]
  · intro o h
    simp [Order.calculateRefundAmount, h]
  · intro o h
    rcases h with h | h | h | h <;> simp [Order.calculateRefundAmount, h]
  · simp [Order.calculateRefundAmount, setStatusTotal]
  · simp [Order.calculateRefundAmount, setStatusTotal]
    norm_num
  · simp [Order.calculateRefundAmount, setStatusTotal]
    norm_num

/-- Witness for C3: a confirmed order with total 40 refunds its full total. -/
theorem calculateRefundAmount_tiers_witness :
    (setStatusTotal .confirmed 40).calculateRefundAmount = 40 :=
  calculateRefundAmount_tiers.2.1 (setStatusTotal .confirmed 40) (Or.inr rfl)

/-- C4: with a non-empty reason, cancellation fails with `Validation`
exactly when the status is `out_for_delivery`, `delivered`, `cancelled` or
`refunded`; every other status — `ready_for_pickup` included — cancels
successfully. -/
theorem cancelRoute_validation_iff
    (o : Order) (reason : String) (adm : Bool) (actor now : ℕ)
    (catalog : List MenuItem) (hr : reason ≠ "") :
    (cancelRoute o reason adm actor now catalog = .error .validation ↔
      o.status = .out_for_delivery ∨ o.status = .delivered ∨
        o.status = .cancelled ∨ o.status = .refunded) ∧
    (¬(o.status = .out_for_delivery ∨ o.status = .delivered ∨
        o.status = .cancelled ∨ o.status = .refunded) →
      cancelRoute o reason adm actor now catalog =
        .ok (cancelledOrder o reason adm actor now, restoreInventory catalog o.items)) := by
  have hmem : o.status ∈ nonCancellableStatuses ↔
      (o.status = .out_for_delivery ∨ o.status = .delivered ∨
        o.status = .cancelled ∨ o.status = .refunded) := by
    simp [nonCancellableStatuses]
  by_cases hc : o.status ∈ nonCancellableStatuses
  · have hroute : cancelRoute o reason adm actor now catalog = .error .validation := by
      simp [cancelRoute, hr, Order.canBeCancelled, hc]
    exact ⟨⟨fun _ => hmem.mp hc, fun _ => hroute⟩, fun h => (h (hmem.mp hc)).elim⟩
  · have hroute : cancelRoute o reason adm actor now catalog =
        .ok (cancelledOrder o reason adm actor now, restoreInventory catalog o.items) := by
      simp [cancelRoute, hr, Order.canBeCancelled, hc]
    refine ⟨⟨fun habs => ?_, fun h => (hc (hmem.mpr h)).elim⟩, fun _ => hroute⟩
    rw [hroute] at habs
    exact absurd habs (by simp)

/-- Witness for C4: a `ready_for_pickup` order cancels successfully, and a
`delivered` order is rejected with `Validation`. -/
theorem cancelRoute_validation_iff_witness :
    cancelRoute (setStatusTotal .ready_for_pickup 100) ("late") false 3 2000 [] =
      .ok (cancelledOrder (setStatusTotal .ready_for_pickup 100) ("late") false 3 2000,
        restoreInventory [] (setStatusTotal .ready_for_pickup 100).items) ∧
    cancelRoute (setStatusTotal .delivered 100) ("late") false 3 2000 [] =
      .error .validation :=
  ⟨(cancelRoute_validation_iff (setStatusTotal .ready_for_pickup 100) ("late")
      false 3 2000 [] (by decide)).2 (by decide),
   (cancelRoute_validation_iff (setStatusTotal .delivered 100) ("late")
      false 3 2000 [] (by decide)).1.mpr (by decide)⟩

theorem foldl_add_shift {α : Type} (g : α → ℚ) (step : ℚ → α → ℚ)
    (hstep : ∀ acc x, step acc x = acc + g x) :
    ∀ (l : List α) (init : ℚ), l.foldl step init = init + (l.map g).sum := by
  intro l
  induction l with
  | nil => intro init; simp
  | cons x xs ih =>
      intro init
      rw [List.foldl_cons, hstep, ih, List.map_cons, List.sum_cons, add_assoc]

theorem customizationStep_eq (m : MenuItem) (acc : ℚ) (c : SelectedCustomization) :
    customizationStep m acc c = acc + customizationPrice m c := by
  simp only [customizationStep, customizationPrice]
  rcases h1 : m.customizations.find? (fun cc => cc.name = c.name) with _ | cc
  · rw [h1]; simp
  · rw [h1]
    simp only []
    rcases h2 : cc.options.find? (fun op => op.name = c.selectedOption) with _ | op
    · rw [h2]; simp
    · rw [h2]

theorem addOnStep_eq (m : MenuItem) (acc : ℚ) (a : SelectedAddOn) :
    addOnStep m acc a = acc + addOnPrice m a := by
  simp only [addOnStep, addOnPrice]
  rcases h1 : m.addOns.find? (fun ac => ac.name = a.name) with _ | ac
  · rw [h1]; simp
  · rw [h1]

/-- Counterexample to C5 as stated: for an add-on selected with an explicit
quantity of 0, the source's `addOn.quantity || 1` default treats the falsy 0
as 1, so the matched add-on (price 1) contributes 1, while the claim's
formula (price times quantity, default only when absent) contributes 0. -/
theorem calculatePrice_zero_quantity_cex :
    ex_item.calculatePrice [] [zeroQtyAddOn] = 11 ∧
    claimUnitPrice ex_item [] [zeroQtyAddOn] = 10 ∧
    ex_item.calculatePrice [] [zeroQtyAddOn] ≠ claimUnitPrice ex_item [] [zeroQtyAddOn] := by
  refine ⟨?_, ?_, ?_⟩ <;>
    norm_num [MenuItem.calculatePrice, claimUnitPrice, addOnStep, ex_item,
      zeroQtyAddOn, jsQuantity]

/-- C5 as amended: the unit price equals the base price plus the price of
each selected customization option that resolves against the item's tables
plus each matched add-on's price times its quantity, where a missing or
zero quantity counts as 1 (the source's `|| 1` default); unmatched names
contribute 0; the claim's worked example evaluates to 15. -/
theorem calculatePrice_formula :
    (∀ (m : MenuItem) (cs : List SelectedCustomization) (adds : List SelectedAddOn),
      m.calculatePrice cs adds =
        m.price + (cs.map (customizationPrice m)).sum + (adds.map (addOnPrice m)).sum) ∧
    ex_item.calculatePrice [exCust] [exAddOn] = 15 := by
  constructor
  · intro m cs adds
    rw [MenuItem.calculatePrice,
      foldl_add_shift (customizationPrice m) (customizationStep m)
        (customizationStep_eq m) cs m.price,
      foldl_add_shift (addOnPrice m) (addOnStep m) (addOnStep_eq m) adds]
  · norm_num [MenuItem.calculatePrice, customizationStep, addOnStep, ex_item,
      exCust, exAddOn, jsQuantity]

/-- C7 (code bug): the availability virtual never reaches its day and
time-window logic — for an item that passes the flag, status and quantity
checks it throws `RangeError` from the invalid
`toLocaleDateString('en-US', { weekday: 'lowercase' })` call, while the
intended judgement (the claim's conditions) would accept the item. -/
theorem isCurrentlyAvailable_raises_rangeError :
    ex_item.isCurrentlyAvailable w_clock = .error .jsRangeError ∧
    ex_item.isCurrentlyAvailableIntended w_clock = true := by
  constructor
  · rfl
  · rfl

/-- C9: rating fails with `Validation` unless the order is `delivered` with
no prior rating; a valid first rating on a delivered order sets the rating
block exactly as given, and every later rating attempt on the result fails
with `Validation` and leaves the stored rating unchanged.  The hypothesis
`o.rating.overall ≠ some 0` holds for every storable order: the schema
bounds `rating.overall` to 1..5 and the handler's validators do too. -/
theorem rateOrder_once_delivered_only
    (o : Order) (food delivery overall : ℕ) (review : Option String) (now : ℕ)
    (hwf : o.rating.overall ≠ some 0) :
    (o.status ≠ .delivered ∨ o.rating.overall ≠ none →
      rateOrderRoute o food delivery overall review now = .error .validation ∧
      persistedOrder o (rateOrderRoute o food delivery overall review now) = o) ∧
    (o.status = .delivered → o.rating.overall = none →
      1 ≤ food → food ≤ 5 → 1 ≤ delivery → delivery ≤ 5 → 1 ≤ overall → overall ≤ 5 →
      (orEmpty review).length ≤ 500 →
      ∃ o', rateOrderRoute o food delivery overall review now = .ok o' ∧
        o'.rating = { food := some food, delivery := some delivery,
                      overall := some overall, review := some (orEmpty review),
                      ratedAt := some now } ∧
        ∀ (f' d' ov' : ℕ) (rev' : Option String) (now' : ℕ),
          rateOrderRoute o' f' d' ov' rev' now' = .error .validation ∧
          persistedOrder o' (rateOrderRoute o' f' d' ov' rev' now') = o') := by
  constructor
  · intro hne
    have hroute : rateOrderRoute o food delivery overall review now = .error .validation := by
      rcases hne with hne | hne
      · simp [rateOrderRoute, hne]
      · rcases hov : o.rating.overall with _ | k
        · exact absurd hov hne
        · rcases k with _ | k
          · exact absurd hov hwf
          · simp [rateOrderRoute, hov, jsTruthyNat]
    exact ⟨hroute, by rw [hroute]; rfl⟩
  · intro hdel hnone hf1 hf2 hd1 hd2 ho1 ho2 hrev
    have hrl : ¬ (500 < (orEmpty review).length) := Nat.not_lt.mpr hrev
    have hroute : rateOrderRoute o food delivery overall review now =
        .ok { o with rating :=
          { food := some food, delivery := some delivery, overall := some overall,
            review := some (orEmpty review), ratedAt := some now } } := by
      simp [rateOrderRoute, hf1, hf2, hd1, hd2, ho1, ho2, hrl, hdel, hnone, jsTruthyNat]
    refine ⟨_, hroute, rfl, ?_⟩
    intro f' d' ov' rev' now'
    have hroute' : rateOrderRoute
        { o with rating :=
          { food := some food, delivery := some delivery, overall := some overall,
            review := some (orEmpty review), ratedAt := some now } }
        f' d' ov' rev' now' = .error .validation := by
      cases overall with
      | zero => exact absurd ho1 (by decide)
      | succ k => simp [rateOrderRoute, jsTruthyNat]
    exact ⟨hroute', by rw [hroute']; rfl⟩

/-- Witness for C9: a first rating of a delivered order succeeds and sets
the rating block; rating the result again is rejected. -/
theorem rateOrder_once_delivered_only_witness :
    ∃ o', rateOrderRoute (setStatusTotal .delivered 62) 5 4 5 none 123 = .ok o' ∧
      o'.rating = { food := some 5, delivery := some 4, overall := some 5,
                    review := some "", ratedAt := some 123 } ∧
      rateOrderRoute o' 3 3 3 none 456 = .error .validation := by
  obtain ⟨o', h1, h2, h3⟩ :=
    (rateOrder_once_delivered_only (setStatusTotal .delivered 62) 5 4 5 none 123
        (by decide)).2 (by decide) (by decide) (by decide) (by decide) (by decide)
      (by decide) (by decide) (by decide) (by decide)
  exact ⟨o', h1, h2, (h3 3 3 3 none 456).1⟩

theorem restoreItemQuantity_id (m : MenuItem) (q : ℕ) :
    (restoreItemQuantity m q).id = m.id := by
  simp only [restoreItemQuantity]
  rcases h : m.availability.availableQuantity with _ | a <;> rfl

theorem restoreStep_id (li : OrderItem) (m : MenuItem) :
    (restoreStep li m).id = m.id := by
  simp only [restoreStep]
  split
  · exact restoreItemQuantity_id m li.quantity
  · rfl

theorem findMenuItem_restoreForItem (li : OrderItem) (x : ℕ) :
    ∀ catalog : List MenuItem,
      findMenuItem (restoreForItem catalog li) x =
        (findMenuItem catalog x).map (restoreStep li) := by
  intro catalog
  induction catalog with
  | nil => rfl
  | cons m rest ih =>
      by_cases hm : m.id = x
      · have hm' : (restoreStep li m).id = x := by rw [restoreStep_id]; exact hm
        simp only [restoreForItem, List.map_cons, findMenuItem] at *
        rw [List.find?_cons_of_pos _ (by simp [hm']), List.find?_cons_of_pos _ (by simp [hm])]
        rfl
      · have hm' : ¬ (restoreStep li m).id = x := by rw [restoreStep_id]; exact hm
        simp only [restoreForItem, List.map_cons, findMenuItem] at *
        rw [List.find?_cons_of_neg _ (by simp [hm']), List.find?_cons_of_neg _ (by simp [hm])]
        exact ih

theorem findMenuItem_restoreInventory_of_not_mem :
    ∀ (items : List OrderItem) (catalog : List MenuItem) (x : ℕ),
      x ∉ items.map (fun li => li.menuItem) →
      findMenuItem (restoreInventory catalog items) x = findMenuItem catalog x := by
  intro items
  induction items with
  | nil => intro _ _ _; rfl
  | cons li rest ih =>
      intro catalog x hx
      rw [List.map_cons, List.mem_cons, not_or] at hx
      obtain ⟨hx1, hx2⟩ := hx
      simp only [restoreInventory]
      rw [ih (restoreForItem catalog li) x hx2, findMenuItem_restoreForItem]
      cases hf : findMenuItem catalog x with
      | none => rfl
      | some m =>
          have hf' := hf
          simp only [findMenuItem] at hf'
          have hm := List.find?_some hf'
          simp only [decide_eq_true_eq] at hm
          simp [restoreStep, hm, hx1]

theorem findMenuItem_restoreInventory_of_mem :
    ∀ (items : List OrderItem) (catalog : List MenuItem) (li : OrderItem),
      li ∈ items → (items.map (fun l => l.menuItem)).Nodup →
      findMenuItem (restoreInventory catalog items) li.menuItem =
        (findMenuItem catalog li.menuItem).map
          (fun m => restoreItemQuantity m li.quantity) := by
  intro items
  induction items with
  | nil => intro _ li h _; cases h
  | cons hd rest ih =>
      intro catalog li hmem hnd
      rw [List.map_cons, List.nodup_cons] at hnd
      obtain ⟨hnd1, hnd2⟩ := hnd
      rcases List.mem_cons.mp hmem with rfl | hmem'
      · simp only [restoreInventory]
        rw [findMenuItem_restoreInventory_of_not_mem rest _ _ hnd1,
          findMenuItem_restoreForItem]
        cases hf : findMenuItem catalog li.menuItem with
        | none => rfl
        | some m =>
            have hf' := hf
            simp only [findMenuItem] at hf'
            have hm := List.find?_some hf'
            simp only [decide_eq_true_eq] at hm
            simp [restoreStep, hm]
      · have hne : li.menuItem ≠ hd.menuItem := by
          intro he
          exact hnd1 (he ▸ List.mem_map_of_mem (fun l => l.menuItem) hmem')
        simp only [restoreInventory]
        rw [ih (restoreForItem catalog hd) li hmem' hnd2, findMenuItem_restoreForItem]
        cases hf : findMenuItem catalog li.menuItem with
        | none => rfl
        | some m =>
            have hf' := hf
            simp only [findMenuItem] at hf'
            have hm := List.find?_some hf'
            simp only [decide_eq_true_eq] at hm
            simp [restoreStep, hm, hne]

/-- C10: a successful cancellation restores the inventory decremented at
creation — for every line item of the order (their menu-item references are
pairwise distinct, which the creation handler's length check guarantees for
every order it accepts), a referenced catalog document with a non-`null`
`availableQuantity` gains exactly that line item's quantity, and one with a
`null` quantity is left unchanged. -/
theorem cancelRoute_restores_inventory
    (o : Order) (reason : String) (adm : Bool) (actor now : ℕ)
    (catalog : List MenuItem) (o' : Order) (cat' : List MenuItem)
    (hok : cancelRoute o reason adm actor now catalog = .ok (o', cat'))
    (hnd : (o.items.map (fun li => li.menuItem)).Nodup)
    (li : OrderItem) (hli : li ∈ o.items) (m : MenuItem)
    (hm : findMenuItem catalog li.menuItem = some m) :
    (∀ q, m.availability.availableQuantity = some q →
      findMenuItem cat' li.menuItem =
        some { m with availability :=
          { m.availability with availableQuantity := some (q + li.quantity) } }) ∧
    (m.availability.availableQuantity = none →
      findMenuItem cat' li.menuItem = some m) := by
  have hcat : cat' = restoreInventory catalog o.items := by
    simp only [cancelRoute] at hok
    split_ifs at hok
    exact (congrArg Prod.snd (Except.ok.inj hok)).symm
  subst hcat
  have hmain := findMenuItem_restoreInventory_of_mem o.items catalog li hli hnd
  rw [hmain, hm]
  constructor
  · intro q hq
    simp [restoreItemQuantity, hq]
  · intro hq
    simp [restoreItemQuantity, hq]

/-- Witness for C10: cancelling the witness order (2 units of item 1, 5
left in the catalog) brings the catalog document to 7 units. -/
theorem cancelRoute_restores_inventory_witness :
    cancelRoute w_pendingOrder ("changed my mind") false 3 2000 w_cat =
      .ok (cancelledOrder w_pendingOrder ("changed my mind") false 3 2000,
        restoreInventory w_cat w_pendingOrder.items) ∧
    (w_pendingOrder.items.map (fun li => li.menuItem)).Nodup ∧
    w_li ∈ w_pendingOrder.items ∧
    findMenuItem w_cat w_li.menuItem = some w_catItem ∧
    w_catItem.availability.availableQuantity = some 5 ∧
    findMenuItem (restoreInventory w_cat w_pendingOrder.items) w_li.menuItem =
      some { w_catItem with availability :=
        { w_catItem.availability with availableQuantity := some (5 + w_li.quantity) } } := by
  refine ⟨rfl, by decide, by decide, rfl, rfl, ?_⟩
  exact (cancelRoute_restores_inventory w_pendingOrder ("changed my mind") false 3 2000
    w_cat _ _ rfl (by decide) w_li (by decide) w_catItem rfl).1 5 rfl

theorem cancelledOrder_pricing (o : Order) (reason : String) (adm : Bool)
    (actor now : ℕ) : (cancelledOrder o reason adm actor now).pricing = o.pricing := by
  simp only [cancelledOrder]
  split <;> rfl

theorem cancelledOrder_status (o : Order) (reason : String) (adm : Bool)
    (actor now : ℕ) : (cancelledOrder o reason adm actor now).status = .cancelled := by
  simp only [cancelledOrder]
  split <;> rfl

theorem updateStatusRoute_ok_iff (o : Order) (t : OrderStatus) (n : String)
    (a now : ℕ) (o' : Order) :
    updateStatusRoute o t n a now = .ok o' ↔
      t ∈ allowedStatusTargets ∧ t ∈ legalSuccessors o.status ∧
        o' = o.updateStatus t n (some a) now := by
  constructor
  · intro h
    simp only [updateStatusRoute] at h
    split at h
    · cases h
    · rename_i h1
      split at h
      · cases h
      · rename_i succs hv
        split at h
        · rename_i h2
          refine ⟨not_not.mp h1, ?_, (Except.ok.inj h).symm⟩
          simpa [legalSuccessors, hv] using h2
        · cases h
  · rintro ⟨h1, h2, rfl⟩
    cases hv : validTransitions o.status with
    | none => rw [legalSuccessors, hv] at h2; simp at h2
    | some succs =>
        have h2' : t ∈ succs := by simpa [legalSuccessors, hv] using h2
        simp [updateStatusRoute, h1, hv, h2']

theorem pricing_updateStatusRoute (o : Order) (t : OrderStatus) (n : String)
    (a now : ℕ) :
    (persistedOrder o (updateStatusRoute o t n a now)).pricing = o.pricing := by
  cases hr : updateStatusRoute o t n a now with
  | error e => rfl
  | ok o' =>
      obtain ⟨_, _, rfl⟩ := (updateStatusRoute_ok_iff o t n a now o').mp hr
      simp only [persistedOrder]
      exact updateStatus_pricing o t n (some a) now

theorem pricing_cancelRoute (o : Order) (reason : String) (adm : Bool)
    (actor now : ℕ) (catalog : List MenuItem) :
    (cancelPersisted o (cancelRoute o reason adm actor now catalog)).pricing =
      o.pricing := by
  simp only [cancelRoute]
  split_ifs
  · rfl
  · rfl
  · simp only [cancelPersisted]
    exact cancelledOrder_pricing o reason adm actor now

theorem pricing_rateOrderRoute (o : Order) (f d ov : ℕ) (rev : Option String)
    (now : ℕ) :
    (persistedOrder o (rateOrderRoute o f d ov rev now)).pricing = o.pricing := by
  simp only [rateOrderRoute]
  split_ifs <;> rfl

theorem buildOrderItems_itemTotal (menuItems : List MenuItem) (now : Clock) :
    ∀ (rs : List ReqItem) (items : List OrderItem),
      buildOrderItems menuItems now rs = .ok items →
      items.map (fun li => li.itemTotal) =
        items.map (fun li => li.price * (li.quantity : ℚ)) := by
  intro rs
  induction rs with
  | nil =>
      intro items h
      simp only [buildOrderItems] at h
      obtain rfl := Except.ok.inj h
      rfl
  | cons r rest ih =>
      intro items h
      simp only [buildOrderItems] at h
      split at h
      · cases h
      · split at h
        · cases h
        · split at h
          · cases h
          · split at h
            · cases h
            · rename_i tail htail
              obtain rfl := Except.ok.inj h
              simp only [List.map_cons]
              rw [ih tail htail]

theorem buildOrder_ok_spec (uid : ℕ) (restaurant? : Option Restaurant)
    (catalog : List MenuItem) (req : CreateRequest) (now : Clock) (nowMs : ℕ)
    (o : Order) (h : buildOrder uid restaurant? catalog req now nowMs = .ok o) :
    o.pricing.total = o.pricing.subtotal + o.pricing.deliveryFee + o.pricing.tax -
        o.pricing.discountAmount + o.pricing.tip ∧
    o.pricing.tax = o.pricing.subtotal * (8 / 100) ∧
    o.pricing.subtotal = (o.items.map (fun li => li.price * (li.quantity : ℚ))).sum ∧
    schemaValidate o = true ∧
    o.paymentInfo.status = .pending ∧
    o.status = .pending := by
  simp only [buildOrder] at h
  split at h
  · cases h
  · split at h
    · cases h
    · split at h
      · cases h
      · split at h
        · cases h
        · rename_i items hitems
          split at h
          · cases h
          · split at h
            · rename_i hsv
              obtain rfl := Except.ok.inj h
              refine ⟨rfl, rfl, ?_, hsv, rfl, rfl⟩
              simpa using congrArg List.sum (buildOrderItems_itemTotal _ now _ items hitems)
            · cases h

/-- C6: for every successfully created order, the pricing fields satisfy
`total = subtotal + deliveryFee + tax - discount + tip` with
`tax = subtotal * 8%` and `subtotal` the sum of unit price times quantity
over the line items; Mongoose's schema bounds make every pricing component
non-negative; and no later operation (status update, cancellation, rating)
touches the pricing block. -/
theorem createOrder_pricing_invariant (uid : ℕ) (restaurant? : Option Restaurant)
    (catalog : List MenuItem) (req : CreateRequest) (now : Clock) (nowMs : ℕ)
    (gw : Option PayResult) (o : Order)
    (hok : (createOrder uid restaurant? catalog req now nowMs gw).response = .ok o) :
    o.pricing.total = o.pricing.subtotal + o.pricing.deliveryFee + o.pricing.tax -
        o.pricing.discountAmount + o.pricing.tip ∧
    o.pricing.tax = o.pricing.subtotal * (8 / 100) ∧
    o.pricing.subtotal = (o.items.map (fun li => li.price * (li.quantity : ℚ))).sum ∧
    (0 ≤ o.pricing.subtotal ∧ 0 ≤ o.pricing.deliveryFee ∧ 0 ≤ o.pricing.tax ∧
      0 ≤ o.pricing.discountAmount ∧ 0 ≤ o.pricing.tip ∧ 0 ≤ o.pricing.total) ∧
    (∀ (t : OrderStatus) (n : String) (a now' : ℕ),
      (persistedOrder o (updateStatusRoute o t n a now')).pricing = o.pricing) ∧
    (∀ (reason : String) (adm : Bool) (actor now' : ℕ) (cat : List MenuItem),
      (cancelPersisted o (cancelRoute o reason adm actor now' cat)).pricing =
        o.pricing) ∧
    (∀ (f d ov : ℕ) (rev : Option String) (now' : ℕ),
      (persistedOrder o (rateOrderRoute o f d ov rev now')).pricing = o.pricing) := by
  have key : ∃ o₀, buildOrder uid restaurant? catalog req now nowMs = .ok o₀ ∧
      o.pricing = o₀.pricing ∧ o.items = o₀.items := by
    simp only [createOrder] at hok
    split at hok
    · simp at hok
    · rename_i order hb
      split at hok
      · obtain rfl := Except.ok.inj hok
        exact ⟨order, hb, rfl, rfl⟩
      · split at hok
        · simp at hok
        · obtain rfl := Except.ok.inj hok
          exact ⟨order, hb, rfl, rfl⟩
  obtain ⟨o₀, hb, hpr, hit⟩ := key
  obtain ⟨he, ht, hs, hsv, _, _⟩ :=
    buildOrder_ok_spec uid restaurant? catalog req now nowMs o₀ hb
  have hnn := hsv
  simp only [schemaValidate, Bool.and_eq_true, decide_eq_true_eq] at hnn
  refine ⟨?_, ?_, ?_, ?_, ?_, ?_, ?_⟩
  · rw [hpr]; exact he
  · rw [hpr]; exact ht
  · rw [hpr, hit]; exact hs
  · rw [hpr]
    obtain ⟨⟨⟨⟨⟨⟨h1, h2⟩, h3⟩, h4⟩, h5⟩, h6⟩, -⟩ := hnn
    exact ⟨h1, h2, h3, h4, h5, h6⟩
  · intro t n a now'; exact pricing_updateStatusRoute o t n a now'
  · intro reason adm actor now' cat; exact pricing_cancelRoute o reason adm actor now' cat
  · intro f d ov rev now'; exact pricing_rateOrderRoute o f d ov rev now'

/-- C8: once the pure build phase accepts a request, a gateway failure on a
non-cash-on-delivery method makes the handler delete the just-created order
and re-surface `PaymentError` — the store keeps no order and the catalog is
untouched — while cash on delivery never consults the gateway and leaves the
order's payment status `pending`. -/
theorem paymentFailure_compensating_delete (uid : ℕ)
    (restaurant? : Option Restaurant) (catalog : List MenuItem)
    (req : CreateRequest) (now : Clock) (nowMs : ℕ) (o₀ : Order)
    (hb : buildOrder uid restaurant? catalog req now nowMs = .ok o₀) :
    (req.paymentMethod ≠ .cash_on_delivery →
      createOrder uid restaurant? catalog req now nowMs none =
        { response := .error .payment, persisted := [], catalog := catalog }) ∧
    (req.paymentMethod = .cash_on_delivery →
      ∀ gw : Option PayResult,
        createOrder uid restaurant? catalog req now nowMs gw =
          { response := .ok o₀
            persisted := [o₀]
            catalog := decrementInventory catalog req.items } ∧
        o₀.paymentInfo.status = .pending) := by
  constructor
  · intro hm
    simp [createOrder, hb, hm]
  · intro hm gw
    refine ⟨by simp [createOrder, hb, hm], ?_⟩
    exact (buildOrder_ok_spec uid restaurant? catalog req now nowMs o₀ hb).2.2.2.2.1

/-- Evaluation of the build phase on the witness request: it accepts and
produces exactly the witness order. -/
theorem w_buildOrder_eq :
    buildOrder 3 (some w_rest) w_cat w_req w_clock 500 = .ok w_pendingOrder := by
  norm_num [buildOrder, buildOrderItems, schemaValidate, MenuItem.calculatePrice,
    MenuItem.isCurrentlyAvailableIntended, quantityDepleted, TimeOfDay.lt, jsOrZero,
    findMenuItem, w_rest, w_cat, w_catItem, w_req, w_clock, w_pendingOrder, w_li,
    alwaysAvailable, List.filter_cons, List.find?_cons]

/-- Witness for C6: the concrete cash-on-delivery creation succeeds and its
pricing block satisfies the invariant (62 = 50 + 5 + 4 - 0 + 3, tax 4 = 8%
of 50, subtotal 50 = 25 x 2). -/
theorem createOrder_pricing_invariant_witness :
    (createOrder 3 (some w_rest) w_cat w_req w_clock 500 none).response =
      .ok w_pendingOrder ∧
    w_pendingOrder.pricing.total = w_pendingOrder.pricing.subtotal +
      w_pendingOrder.pricing.deliveryFee + w_pendingOrder.pricing.tax -
      w_pendingOrder.pricing.discountAmount + w_pendingOrder.pricing.tip ∧
    w_pendingOrder.pricing.tax = w_pendingOrder.pricing.subtotal * (8 / 100) ∧
    w_pendingOrder.pricing.subtotal =
      (w_pendingOrder.items.map (fun li => li.price * (li.quantity : ℚ))).sum := by
  have hok : (createOrder 3 (some w_rest) w_cat w_req w_clock 500 none).response =
      .ok w_pendingOrder := by
    have hm : w_req.paymentMethod = .cash_on_delivery := rfl
    simp [createOrder, w_buildOrder_eq, hm]
  have hinv := createOrder_pricing_invariant 3 (some w_rest) w_cat w_req w_clock
    500 none w_pendingOrder hok
  exact ⟨hok, hinv.1, hinv.2.1, hinv.2.2.1⟩

/-- Witness for C8: on the witness build result, a card request with a
failing gateway persists nothing and surfaces `PaymentError`; the witness
cash-on-delivery request ignores the gateway and keeps payment `pending`. -/
theorem paymentFailure_compensating_delete_witness :
    createOrder 3 (some w_rest) w_cat
        { w_req with paymentMethod := .card } w_clock 500 none =
      { response := .error .payment, persisted := [], catalog := w_cat } ∧
    createOrder 3 (some w_rest) w_cat w_req w_clock 500 none =
      { response := .ok w_pendingOrder
        persisted := [w_pendingOrder]
        catalog := decrementInventory w_cat w_req.items } ∧
    w_pendingOrder.paymentInfo.status = .pending := by
  have hb : buildOrder 3 (some w_rest) w_cat { w_req with paymentMethod := .card }
      w_clock 500 = .ok { w_pendingOrder with paymentInfo :=
        { w_pendingOrder.paymentInfo with method := .card } } := by
    norm_num [buildOrder, buildOrderItems, schemaValidate, MenuItem.calculatePrice,
      MenuItem.isCurrentlyAvailableIntended, quantityDepleted, TimeOfDay.lt, jsOrZero,
      findMenuItem, w_rest, w_cat, w_catItem, w_req, w_clock, w_pendingOrder, w_li,
      alwaysAvailable, List.filter_cons, List.find?_cons]
  refine ⟨?_, ?_, ?_⟩
  · exact (paymentFailure_compensating_delete 3 (some w_rest) w_cat
      { w_req with paymentMethod := .card } w_clock 500 _ hb).1 (by decide)
  · exact ((paymentFailure_compensating_delete 3 (some w_rest) w_cat w_req w_clock
      500 w_pendingOrder w_buildOrder_eq).2 (by decide) none).1
  · exact ((paymentFailure_compensating_delete 3 (some w_rest) w_cat w_req w_clock
      500 w_pendingOrder w_buildOrder_eq).2 (by decide) none).2

theorem status_refunded_never_assigned :
    (∀ (o : Order) (t : OrderStatus) (n : String) (a now : ℕ) (o' : Order),
      updateStatusRoute o t n a now = .ok o' → o'.status ≠ .refunded) ∧
    (∀ (o : Order) (reason : String) (adm : Bool) (actor now : ℕ)
        (catalog : List MenuItem) (o' : Order) (cat' : List MenuItem),
      cancelRoute o reason adm actor now catalog = .ok (o', cat') →
        o'.status = .cancelled) ∧
    (∀ (o : Order) (f d ov : ℕ) (rev : Option String) (now : ℕ) (o' : Order),
      rateOrderRoute o f d ov rev now = .ok o' → o'.status = o.status) ∧
    (∀ (uid : ℕ) (restaurant? : Option Restaurant) (catalog : List MenuItem)
        (req : CreateRequest) (now : Clock) (nowMs : ℕ) (gw : Option PayResult)
        (o' : Order),
      (createOrder uid restaurant? catalog req now nowMs gw).response = .ok o' →
        o'.status = .pending) := by
  refine ⟨?_, ?_, ?_, ?_⟩
  · intro o t n a now o' h
    obtain ⟨h1, _, rfl⟩ := (updateStatusRoute_ok_iff o t n a now o').mp h
    rw [updateStatus_status]
    intro hc
    rw [hc] at h1
    exact absurd h1 (by decide)
  · intro o reason adm actor now catalog o' cat' h
    simp only [cancelRoute] at h
    split_ifs at h
    have ho' : o' = cancelledOrder o reason adm actor now :=
      (congrArg Prod.fst (Except.ok.inj h)).symm
    rw [ho', cancelledOrder_status]
  · intro o f d ov rev now o' h
    simp only [rateOrderRoute] at h
    split_ifs at h
    obtain rfl := Except.ok.inj h
    rfl
  · intro uid restaurant? catalog req now nowMs gw o' h
    simp only [createOrder] at h
    split at h
    · simp at h
    · rename_i order hb
      have hst := (buildOrder_ok_spec uid restaurant? catalog req now nowMs
        order hb).2.2.2.2.2
      split at h
      · obtain rfl := Except.ok.inj h
        exact hst
      · split at h
        · simp at h
        · obtain rfl := Except.ok.inj h
          exact hst

end FoodOrder
